import Mathlib

/-!
# Verification of `folly::SingletonThreadLocal` (src/folly/SingletonThreadLocal.h)

A shallow embedding of the per-thread state manipulated by
`SingletonThreadLocal<T, Tag, Make>`.  All of the interesting state of the
class is partitioned strictly by thread (the spec's central concurrency
invariant), so the embedding is the state machine of one thread:

* `Wrapper` (source lines 92-124): the per-thread object owned by the
  `ThreadLocal<Wrapper>` slot.  It holds the `T` object (whose address, and
  hence reference identity, is the wrapper's own address, since `object` is
  the first field and `operator T&` returns it) and the intrusive list
  `caches` of `Node`s currently pointing at it.  Addresses are modelled as
  identities drawn from a monotone counter `nextId`, so a reborn wrapper is
  distinguishable from its predecessor.
* `Node` (source lines 70-87): the per-call-site, per-thread cache record.
  Its `cache` and `stale` members are C++ *references* to the call site's
  `static thread_local Wrapper* cache` and `static thread_local bool stale`
  variables, so in the embedding they are not duplicated: a `Site` holds the
  call site's fast pointer (`cache`), staleness flag (`stale`) and the
  lifecycle of its `static thread_local Node` (`node`), which is
  not-yet-constructed, live (with the node's identity used for intrusive
  linkage), or destroyed.  A C++ `static thread_local` is constructed on the
  first pass through its declaration and is never re-constructed after its
  destructor has run, hence the three-state lifecycle.
* the `ThreadLocal<Wrapper>` slot (an excluded collaborator, assumed per the
  spec to lazily create on first access and to hold at most one wrapper per
  thread) is `Option Wrapper`; `getWrapper` (lines 133-135) dereferences it,
  constructing the `Wrapper` - and thereby running `Make` once, counted by
  `makeCount` - when the slot is empty.

Teardown of the thread's storage is driven by the host environment, so it is
an external event: `Event.nodeTeardown s` runs `~Node` for call site `s`
(lines 79-81) and `Event.wrapperTeardown` runs `~Wrapper` (lines 117-123).
`Event.access s` is a call to `get()` (lines 148-155) at call site `s`.

`Make` failure (for the error-handling claim) is modelled separately at the
end of the file by `fGet` and friends, parametrised by an oracle saying which
invocations of `Make` succeed.
-/

namespace SingletonThreadLocal

/-- The `Wrapper` struct (source lines 92-124): the `T` object it owns is represented by
the wrapper's identity `id` (a `Nat` standing for its address, which is also the identity of the reference `T&` returned by `get()`, since `object` is the wrapper's first field); `caches` is the intrusive list of linked nodes
(`List::push_front`, so construction order is newest-first). -/
structure Wrapper where
  id : Nat
  caches : List Nat
  deriving DecidableEq, Repr

/-- Lifecycle of the `static thread_local Node node(cache, stale)` of one
call site (source line 142): not yet constructed, live (carrying the node's
identity), or destroyed.  A destroyed function-scope static is never
re-constructed. -/
inductive NodeLife where
  | notYet
  | live (nid : Nat)
  | dead
  deriving DecidableEq, Repr

/-- The per-call-site, per-thread state: the call site's
`static thread_local Wrapper* cache` (line 150, `none` = null),
`static thread_local bool stale` (line 141, zero-initialised to `false`), and
the lifecycle of its `Node`.  The `Node`'s own `cache` and `stale` members
are references to these same two variables. -/
structure Site where
  cache : Option Nat
  stale : Bool
  node : NodeLife
  deriving DecidableEq, Repr

/-- Initial state of a call site on a thread: null fast pointer, staleness
flag `false`, node not yet constructed. -/
def Site.init : Site := ⟨none, false, .notYet⟩

/-- The whole per-thread state: the `ThreadLocal<Wrapper>` slot, the state of
every call site (indexed by `Nat`), a monotone address allocator, and the
number of invocations of the construction policy `Make` on this thread. -/
structure ThreadState where
  wrapper : Option Wrapper
  sites : Nat → Site
  nextId : Nat
  makeCount : Nat

@[ext]
theorem ThreadState.ext' {σ τ : ThreadState}
    (hw : σ.wrapper = τ.wrapper) (hs : ∀ s, σ.sites s = τ.sites s)
    (hn : σ.nextId = τ.nextId) (hm : σ.makeCount = τ.makeCount) : σ = τ := by
  cases σ; cases τ
  simp only [mk.injEq]
  exact ⟨hw, funext hs, hn, hm⟩

/-- The state of call site `s`. -/
def ThreadState.site (σ : ThreadState) (s : Nat) : Site := σ.sites s

/-- Overwrite the state of call site `s`. -/
def ThreadState.setSite (σ : ThreadState) (s : Nat) (v : Site) : ThreadState :=
  { σ with sites := fun s' => if s' = s then v else σ.sites s' }

/-- A fresh thread: empty wrapper slot, every call site in its initial
state, no `Make` invocation yet. -/
def init : ThreadState := ⟨none, fun _ => Site.init, 0, 0⟩

/-- Models `getWrapper` (source lines 133-135): `*getWrapperTL()`.  The
`ThreadLocal` collaborator returns the thread's wrapper, lazily
default-constructing it - which runs `Make` exactly once per construction
(lines 107-116) - when the slot is empty (including when it is empty again
after teardown: lazy rebirth).  Returns the wrapper's identity together with
the updated state. -/
def getWrapper (σ : ThreadState) : Nat × ThreadState :=
  match σ.wrapper with
  | some w => (w.id, σ)
  | none =>
      (σ.nextId,
        { σ with
          wrapper := some ⟨σ.nextId, []⟩,
          nextId := σ.nextId + 1,
          makeCount := σ.makeCount + 1 })

/-- Models `Node::Node` (source lines 74-78) run for call site `s`:
`auto& wrapper = getWrapper(); wrapper.caches.push_front(*this);
cache = &wrapper;`.  The node gets a fresh identity; the call site's `stale`
flag is not touched. -/
def nodeCtor (σ : ThreadState) (s : Nat) : ThreadState :=
  let wid := (getWrapper σ).1
  let σ1 := (getWrapper σ).2
  let nid := σ1.nextId
  let σ2 : ThreadState :=
    { σ1 with
      nextId := nid + 1,
      wrapper := σ1.wrapper.map fun w => { w with caches := nid :: w.caches } }
  σ2.setSite s { σ2.site s with cache := some wid, node := .live nid }

/-- Models `getSlow` (source lines 138-144) at call site `s`.  The
`static thread_local Node node(cache, stale)` is constructed only on the
first pass (when it is `notYet`); then
`return !stale && node.cache ? *node.cache : getWrapper();` - note that
`node.cache` is a reference to the call site's `cache` variable.  The
`CHECK_EQ(check, &cache)` guard (lines 139-140) only asserts that distinct
call sites were not merged, which holds by construction here since call
sites are distinct indices. -/
def getSlow (σ : ThreadState) (s : Nat) : Nat × ThreadState :=
  let σ1 := if (σ.site s).node = NodeLife.notYet then nodeCtor σ s else σ
  match (σ1.site s).stale, (σ1.site s).cache with
  | false, some wid => (wid, σ1)
  | _, _ => getWrapper σ1

/-- Models `get` (source lines 148-155) at call site `s`:
`return FOLLY_LIKELY(!!cache) ? *cache : getSlow(cache);`.  Returns the
identity of the referenced object (the wrapper's identity) and the updated
state. -/
def get (σ : ThreadState) (s : Nat) : Nat × ThreadState :=
  match (σ.site s).cache with
  | some wid => (wid, σ)
  | none => getSlow σ s

/-- Models `Node::clear` (source lines 83-86) applied to the site the node's
references are bound to: `cache = nullptr; stale = true;`. -/
def clearSite (st : Site) : Site := { st with cache := none, stale := true }

/-- Models `Node::~Node` (source lines 79-81) for call site `s`: runs `clear()`,
then the `auto_unlink` base-hook destructor unlinks the node from whatever
list it is in (a no-op when it is not linked, e.g. because `~Wrapper`
already removed it, or the linking wrapper no longer exists).  No-op if the
node was never constructed or is already destroyed. -/
def nodeDtor (σ : ThreadState) (s : Nat) : ThreadState :=
  match (σ.site s).node with
  | NodeLife.live nid =>
      let σ1 := σ.setSite s ⟨none, true, .dead⟩
      { σ1 with
        wrapper := σ1.wrapper.map fun w => { w with caches := w.caches.erase nid } }
  | _ => σ

/-- Models `Wrapper::~Wrapper` (source lines 117-123): `for (auto& node : caches)
node.clear();` - clearing, through each linked node's references, the fast
pointer and staleness flag of the call site owning that node - then
`caches.clear()` and `object.~T()`; the slot becomes empty.  No-op if the
slot is already empty. -/
def wrapperDtor (σ : ThreadState) : ThreadState :=
  match σ.wrapper with
  | none => σ
  | some w =>
      { σ with
        wrapper := none,
        sites := fun s' =>
          match (σ.sites s').node with
          | NodeLife.live nid =>
              if nid ∈ w.caches then clearSite (σ.sites s') else σ.sites s'
          | _ => σ.sites s' }

/-- The events that can happen to one thread's state: a call to `get()` at a
call site, teardown of a call site's `static thread_local Node`, and
teardown of the thread's `ThreadLocal<Wrapper>` slot.  The host environment
may interleave the two teardown kinds in any order. -/
inductive Event where
  | access (s : Nat)
  | nodeTeardown (s : Nat)
  | wrapperTeardown
  deriving DecidableEq, Repr

/-- One step of the thread's state machine. -/
def step (σ : ThreadState) : Event → ThreadState
  | .access s => (get σ s).2
  | .nodeTeardown s => nodeDtor σ s
  | .wrapperTeardown => wrapperDtor σ

/-- Run a sequence of events. -/
def run (σ : ThreadState) (evs : List Event) : ThreadState := evs.foldl step σ

/-- Whether an event is a `get()` call (as opposed to a teardown). -/
def isAccess : Event → Bool
  | .access _ => true
  | _ => false

/-! ## Fallible construction policy

For the error-handling claim, the same code paths are embedded once more
with a fallible `Make`: an oracle `o : Nat → Bool` says whether the `k`-th
invocation of the policy on this thread (counted by `makeCount`) succeeds.
A C++ exception thrown by `Make{}()` inside the `Wrapper` constructor
(source lines 107-116) aborts the placement-new, so the `ThreadLocal` slot
stays empty; thrown inside the dynamic initialisation of
`static thread_local Node node(cache, stale)` (line 142, via the `Node`
constructor's call to `getWrapper()`), it leaves that static unconstructed,
to be retried on the next pass.  The outcome `Except.error ()` stands for
the propagated exception. -/

/-- Fallible `getWrapper` (source lines 133-135): invoking the policy bumps
`makeCount` even on failure; on failure the exception propagates and the
slot stays empty (the `Wrapper` is left unconstructed). -/
def fGetWrapper (o : Nat → Bool) (σ : ThreadState) :
    Except Unit Nat × ThreadState :=
  match σ.wrapper with
  | some w => (.ok w.id, σ)
  | none =>
      if o σ.makeCount then
        (.ok σ.nextId,
          { σ with
            wrapper := some ⟨σ.nextId, []⟩,
            nextId := σ.nextId + 1,
            makeCount := σ.makeCount + 1 })
      else
        (.error (), { σ with makeCount := σ.makeCount + 1 })

/-- Fallible `Node::Node` (source lines 74-78): if `getWrapper()` throws,
the node is not constructed and the exception propagates; otherwise the
node links itself and sets the call site's fast pointer. -/
def fNodeCtor (o : Nat → Bool) (σ : ThreadState) (s : Nat) :
    Except Unit Unit × ThreadState :=
  match fGetWrapper o σ with
  | (.error e, σ1) => (.error e, σ1)
  | (.ok wid, σ1) =>
      let nid := σ1.nextId
      let σ2 : ThreadState :=
        { σ1 with
          nextId := nid + 1,
          wrapper := σ1.wrapper.map fun w => { w with caches := nid :: w.caches } }
      (.ok (), σ2.setSite s { σ2.site s with cache := some wid, node := .live nid })

/-- Fallible `getSlow` (source lines 138-144): a failed dynamic
initialisation of the node static propagates and is retried on the next
pass; otherwise as `getSlow`. -/
def fGetSlow (o : Nat → Bool) (σ : ThreadState) (s : Nat) :
    Except Unit Nat × ThreadState :=
  match (if (σ.site s).node = NodeLife.notYet then fNodeCtor o σ s else (.ok (), σ)) with
  | (.error e, σ1) => (.error e, σ1)
  | (.ok _, σ1) =>
      match (σ1.site s).stale, (σ1.site s).cache with
      | false, some wid => (.ok wid, σ1)
      | _, _ => fGetWrapper o σ1

/-- Fallible `get` (source lines 148-155). -/
def fGet (o : Nat → Bool) (σ : ThreadState) (s : Nat) :
    Except Unit Nat × ThreadState :=
  match (σ.site s).cache with
  | some wid => (.ok wid, σ)
  | none => fGetSlow o σ s

/-! ## The reachable-state invariant

`Inv` collects the state properties that every reachable per-thread state
satisfies:

* `cache_live`: a non-null call-site fast pointer designates the currently
  live wrapper, and that call site's node is live and linked in the
  wrapper's `caches` list (the spec's "a live Cache Node's `cache` field,
  if non-null, always points at a currently-live Wrapper");
* `stale_cleared`: once the staleness flag of a call site is set, its node
  static has been constructed (possibly destroyed again) and its fast
  pointer is null;
* `node_fresh` and `node_inj`: node identities are allocated below the
  counter and distinct call sites have distinct live nodes (distinct C++
  objects have distinct addresses). -/
structure Inv (σ : ThreadState) : Prop where
  cache_live : ∀ s wid, (σ.site s).cache = some wid →
    ∃ w nid, σ.wrapper = some w ∧ w.id = wid ∧
      (σ.site s).node = NodeLife.live nid ∧ nid ∈ w.caches
  stale_cleared : ∀ s, (σ.site s).stale = true →
    (σ.site s).node ≠ NodeLife.notYet ∧ (σ.site s).cache = none
  node_fresh : ∀ s nid, (σ.site s).node = NodeLife.live nid → nid < σ.nextId
  node_inj : ∀ s s' nid, s ≠ s' → (σ.site s).node = NodeLife.live nid →
    (σ.site s').node ≠ NodeLife.live nid

/-! ## Component lemmas -/

@[simp]
theorem site_setSite_self (σ : ThreadState) (s : Nat) (v : Site) :
    (σ.setSite s v).site s = v := by
  simp [ThreadState.setSite, ThreadState.site]

theorem site_setSite_ne (σ : ThreadState) {s s' : Nat} (v : Site) (h : s' ≠ s) :
    (σ.setSite s v).site s' = σ.site s' := by
  simp [ThreadState.setSite, ThreadState.site, h]

@[simp]
theorem wrapper_setSite (σ : ThreadState) (s : Nat) (v : Site) :
    (σ.setSite s v).wrapper = σ.wrapper := rfl

@[simp]
theorem nextId_setSite (σ : ThreadState) (s : Nat) (v : Site) :
    (σ.setSite s v).nextId = σ.nextId := rfl

@[simp]
theorem makeCount_setSite (σ : ThreadState) (s : Nat) (v : Site) :
    (σ.setSite s v).makeCount = σ.makeCount := rfl

theorem getWrapper_of_some {σ : ThreadState} {w : Wrapper} (h : σ.wrapper = some w) :
    getWrapper σ = (w.id, σ) := by
  simp [getWrapper, h]

theorem getWrapper_of_none {σ : ThreadState} (h : σ.wrapper = none) :
    getWrapper σ =
      (σ.nextId,
        { σ with
          wrapper := some ⟨σ.nextId, []⟩,
          nextId := σ.nextId + 1,
          makeCount := σ.makeCount + 1 }) := by
  simp [getWrapper, h]

@[simp]
theorem getWrapper_sites (σ : ThreadState) : (getWrapper σ).2.sites = σ.sites := by
  cases h : σ.wrapper <;> simp [getWrapper, h]

@[simp]
theorem getWrapper_site (σ : ThreadState) (s : Nat) :
    (getWrapper σ).2.site s = σ.site s := by
  simp [ThreadState.site]

theorem getWrapper_wrapper (σ : ThreadState) :
    ∃ w, (getWrapper σ).2.wrapper = some w ∧ (getWrapper σ).1 = w.id := by
  cases h : σ.wrapper with
  | some w => exact ⟨w, by simp [getWrapper_of_some h, h]⟩
  | none => exact ⟨⟨σ.nextId, []⟩, by simp [getWrapper_of_none h]⟩

theorem inv_getWrapper {σ : ThreadState} (h : Inv σ) : Inv (getWrapper σ).2 := by
  cases hw : σ.wrapper with
  | some w => rw [getWrapper_of_some hw]; exact h
  | none =>
      rw [getWrapper_of_none hw]
      constructor
      · intro s wid hc
        rcases h.cache_live s wid hc with ⟨w, nid, hws, _⟩
        rw [hw] at hws
        cases hws
      · intro s hs
        exact h.stale_cleared s hs
      · intro s nid hn
        exact Nat.lt_succ_of_lt (h.node_fresh s nid hn)
      · exact h.node_inj

theorem nodeCtor_site_self (σ : ThreadState) (s : Nat) :
    (nodeCtor σ s).site s =
      { σ.site s with
        cache := some (getWrapper σ).1,
        node := .live (getWrapper σ).2.nextId } := by
  simp only [nodeCtor, site_setSite_self]
  congr 1
  simp [ThreadState.site]

theorem nodeCtor_site_ne (σ : ThreadState) {s s' : Nat} (h : s' ≠ s) :
    (nodeCtor σ s).site s' = σ.site s' := by
  simp only [nodeCtor]
  rw [site_setSite_ne _ _ h]
  simp [ThreadState.site]

theorem nodeCtor_wrapper (σ : ThreadState) (s : Nat) :
    (nodeCtor σ s).wrapper =
      (getWrapper σ).2.wrapper.map
        (fun w => { w with caches := (getWrapper σ).2.nextId :: w.caches }) := rfl

theorem nodeCtor_nextId (σ : ThreadState) (s : Nat) :
    (nodeCtor σ s).nextId = (getWrapper σ).2.nextId + 1 := rfl

theorem nodeCtor_makeCount (σ : ThreadState) (s : Nat) :
    (nodeCtor σ s).makeCount = (getWrapper σ).2.makeCount := rfl

theorem getWrapper_nextId_le (σ : ThreadState) :
    σ.nextId ≤ (getWrapper σ).2.nextId := by
  cases h : σ.wrapper with
  | none => rw [getWrapper_of_none h]; exact Nat.le_succ _
  | some w => rw [getWrapper_of_some h]

theorem nodeCtor_wrapper_some (σ : ThreadState) (s : Nat) :
    ∃ w, (nodeCtor σ s).wrapper = some w ∧ w.id = (getWrapper σ).1 ∧
      (getWrapper σ).2.nextId ∈ w.caches := by
  rcases getWrapper_wrapper σ with ⟨w1, hw, hid⟩
  refine ⟨{ w1 with caches := (getWrapper σ).2.nextId :: w1.caches }, ?_, hid.symm, ?_⟩
  · rw [nodeCtor_wrapper, hw, Option.map_some']
  · exact List.mem_cons_self _ _

theorem inv_nodeCtor {σ : ThreadState} (h : Inv σ) (s : Nat)
    (hn : (σ.site s).node = NodeLife.notYet) : Inv (nodeCtor σ s) := by
  rcases getWrapper_wrapper σ with ⟨w1, hw1, hid1⟩
  have hfresh : ∀ s0 nid0, (σ.site s0).node = NodeLife.live nid0 →
      nid0 < (getWrapper σ).2.nextId := fun s0 nid0 h0 =>
    Nat.lt_of_lt_of_le (h.node_fresh s0 nid0 h0) (getWrapper_nextId_le σ)
  constructor
  · intro s' wid hc
    by_cases hss : s' = s
    · rw [hss] at hc ⊢
      rw [nodeCtor_site_self] at hc
      simp only at hc
      have hwid : (getWrapper σ).1 = wid := Option.some.inj hc
      refine ⟨{ w1 with caches := (getWrapper σ).2.nextId :: w1.caches },
        (getWrapper σ).2.nextId, ?_, ?_, ?_, List.mem_cons_self _ _⟩
      · rw [nodeCtor_wrapper, hw1, Option.map_some']
      · show w1.id = wid
        rw [← hid1]
        exact hwid
      · rw [nodeCtor_site_self]
    · rw [nodeCtor_site_ne σ hss] at hc
      rcases h.cache_live s' wid hc with ⟨w, nid', hww, hidw, hnode, hmem⟩
      have hg : getWrapper σ = (w.id, σ) := getWrapper_of_some hww
      refine ⟨{ w with caches := (getWrapper σ).2.nextId :: w.caches }, nid', ?_, hidw, ?_, ?_⟩
      · rw [nodeCtor_wrapper, hg, hww, Option.map_some']
      · rw [nodeCtor_site_ne σ hss]
        exact hnode
      · exact List.mem_cons_of_mem _ hmem
  · intro s' hs
    by_cases hss : s' = s
    · rw [hss] at hs
      rw [nodeCtor_site_self] at hs
      simp only at hs
      exact absurd hn (h.stale_cleared s hs).1
    · rw [nodeCtor_site_ne σ hss] at hs ⊢
      exact h.stale_cleared s' hs
  · intro s' nid' hn'
    rw [nodeCtor_nextId]
    by_cases hss : s' = s
    · rw [hss] at hn'
      rw [nodeCtor_site_self] at hn'
      simp only [NodeLife.live.injEq] at hn'
      omega
    · rw [nodeCtor_site_ne σ hss] at hn'
      have h1 := hfresh s' nid' hn'
      omega
  · intro s1 s2 nid0 hne h1 h2
    by_cases hs1 : s1 = s
    · rw [hs1] at h1 hne
      rw [nodeCtor_site_self] at h1
      simp only [NodeLife.live.injEq] at h1
      rw [nodeCtor_site_ne σ (Ne.symm hne)] at h2
      have h3 := hfresh s2 nid0 h2
      omega
    · by_cases hs2 : s2 = s
      · rw [hs2] at h2
        rw [nodeCtor_site_self] at h2
        simp only [NodeLife.live.injEq] at h2
        rw [nodeCtor_site_ne σ hs1] at h1
        have h3 := hfresh s1 nid0 h1
        omega
      · rw [nodeCtor_site_ne σ hs1] at h1
        rw [nodeCtor_site_ne σ hs2] at h2
        exact h.node_inj s1 s2 nid0 hne h1 h2

theorem getSlow_site_ne (σ : ThreadState) {s s' : Nat} (h : s' ≠ s) :
    (getSlow σ s).2.site s' = σ.site s' := by
  by_cases hn : (σ.site s).node = NodeLife.notYet
  · simp only [getSlow, hn, ite_true]
    cases hstale : ((nodeCtor σ s).site s).stale <;>
      cases hcache : ((nodeCtor σ s).site s).cache <;>
        simp [hstale, hcache, nodeCtor_site_ne σ h, getWrapper_site]
  · simp only [getSlow, hn, ite_false]
    cases hstale : (σ.site s).stale <;>
      cases hcache : (σ.site s).cache <;>
        simp [hstale, hcache, getWrapper_site]

theorem get_site_ne (σ : ThreadState) {s s' : Nat} (h : s' ≠ s) :
    (get σ s).2.site s' = σ.site s' := by
  cases hc : (σ.site s).cache with
  | some wid => simp [get, hc]
  | none => simp [get, hc, getSlow_site_ne σ h]

theorem get_of_stale {σ : ThreadState} (h : Inv σ) {s : Nat}
    (hs : (σ.site s).stale = true) : get σ s = getWrapper σ := by
  obtain ⟨hnn, hcn⟩ := h.stale_cleared s hs
  simp only [get, hcn, getSlow, if_neg hnn, hs, hcn]

theorem getWrapper_spec {σ : ThreadState} (h : Inv σ) :
    Inv (getWrapper σ).2 ∧
    ∃ w, (getWrapper σ).2.wrapper = some w ∧ (getWrapper σ).1 = w.id ∧
      (∀ w0, σ.wrapper = some w0 →
        w.id = w0.id ∧ (getWrapper σ).2.makeCount = σ.makeCount) ∧
      (σ.wrapper = none → (getWrapper σ).2.makeCount = σ.makeCount + 1) := by
  refine ⟨inv_getWrapper h, ?_⟩
  cases hw : σ.wrapper with
  | some w0 =>
      have hg := getWrapper_of_some hw
      refine ⟨w0, ?_, ?_, ?_, ?_⟩
      · rw [hg]; exact hw
      · rw [hg]
      · intro w1 hw1
        exact ⟨by rw [Option.some.inj hw1], by rw [hg]⟩
      · intro h0
        exact (Option.some_ne_none _ h0).elim
  | none =>
      have hg := getWrapper_of_none hw
      refine ⟨⟨σ.nextId, []⟩, ?_, ?_, ?_, ?_⟩
      · rw [hg]
      · rw [hg]
      · intro w1 hw1
        exact (Option.some_ne_none _ hw1.symm).elim
      · intro _
        rw [hg]

theorem get_spec {σ : ThreadState} (h : Inv σ) (s : Nat) :
    Inv (get σ s).2 ∧
    ∃ w, (get σ s).2.wrapper = some w ∧ (get σ s).1 = w.id ∧
      (∀ w0, σ.wrapper = some w0 →
        w.id = w0.id ∧ (get σ s).2.makeCount = σ.makeCount) ∧
      (σ.wrapper = none → (get σ s).2.makeCount = σ.makeCount + 1) := by
  cases hc : (σ.site s).cache with
  | some wid =>
      simp only [get, hc]
      rcases h.cache_live s wid hc with ⟨w, nid, hw, hid, _, _⟩
      refine ⟨h, w, hw, hid.symm, ?_, ?_⟩
      · intro w0 hw0
        rw [hw] at hw0
        exact ⟨by rw [Option.some.inj hw0], trivial⟩
      · intro h0
        simp [h0] at hw
  | none =>
      simp only [get, hc]
      by_cases hnode : (σ.site s).node = NodeLife.notYet
      · have hstale : (σ.site s).stale = false := by
          cases hst : (σ.site s).stale with
          | false => rfl
          | true => exact absurd hnode (h.stale_cleared s hst).1
        simp only [getSlow, hnode, ite_true, nodeCtor_site_self, hstale]
        refine ⟨inv_nodeCtor h s hnode, ?_⟩
        rcases nodeCtor_wrapper_some σ s with ⟨w, hw, hid, _⟩
        refine ⟨w, hw, hid.symm, ?_, ?_⟩
        · intro w0 hw0
          have hg := getWrapper_of_some hw0
          refine ⟨?_, ?_⟩
          · rw [hid, hg]
          · rw [nodeCtor_makeCount, hg]
        · intro h0
          have hg := getWrapper_of_none h0
          rw [nodeCtor_makeCount, hg]
      · simp only [getSlow, hnode, ite_false]
        cases hst : (σ.site s).stale <;> simp only [hst, hc] <;> exact getWrapper_spec h

/-! ## Destructor lemmas -/

theorem nodeDtor_eq_of_notYet {σ : ThreadState} {s : Nat}
    (h : (σ.site s).node = NodeLife.notYet) : nodeDtor σ s = σ := by
  simp [nodeDtor, h]

theorem nodeDtor_eq_of_dead {σ : ThreadState} {s : Nat}
    (h : (σ.site s).node = NodeLife.dead) : nodeDtor σ s = σ := by
  simp [nodeDtor, h]

theorem nodeDtor_site_self_of_live {σ : ThreadState} {s nid : Nat}
    (h : (σ.site s).node = NodeLife.live nid) :
    (nodeDtor σ s).site s = ⟨none, true, .dead⟩ := by
  have h2 : (σ.sites s).node = NodeLife.live nid := h
  simp [nodeDtor, ThreadState.site, ThreadState.setSite, h2]

theorem nodeDtor_site_ne (σ : ThreadState) {s s' : Nat} (h : s' ≠ s) :
    (nodeDtor σ s).site s' = σ.site s' := by
  cases hn : (σ.site s).node with
  | live nid =>
      have h2 : (σ.sites s).node = NodeLife.live nid := hn
      simp [nodeDtor, ThreadState.site, ThreadState.setSite, h2, h]
  | notYet => rw [nodeDtor_eq_of_notYet hn]
  | dead => rw [nodeDtor_eq_of_dead hn]

theorem nodeDtor_wrapper_of_live {σ : ThreadState} {s nid : Nat}
    (h : (σ.site s).node = NodeLife.live nid) :
    (nodeDtor σ s).wrapper =
      σ.wrapper.map fun w => { w with caches := w.caches.erase nid } := by
  simp [nodeDtor, h]

theorem nodeDtor_nextId (σ : ThreadState) (s : Nat) :
    (nodeDtor σ s).nextId = σ.nextId := by
  cases hn : (σ.site s).node <;> simp [nodeDtor, hn]

theorem nodeDtor_makeCount (σ : ThreadState) (s : Nat) :
    (nodeDtor σ s).makeCount = σ.makeCount := by
  cases hn : (σ.site s).node <;> simp [nodeDtor, hn]

theorem inv_nodeDtor {σ : ThreadState} (h : Inv σ) (s : Nat) : Inv (nodeDtor σ s) := by
  cases hn : (σ.site s).node with
  | notYet => rw [nodeDtor_eq_of_notYet hn]; exact h
  | dead => rw [nodeDtor_eq_of_dead hn]; exact h
  | live nid =>
      constructor
      · intro s' wid hc
        by_cases hss : s' = s
        · rw [hss, nodeDtor_site_self_of_live hn] at hc
          cases hc
        · rw [nodeDtor_site_ne σ hss] at hc
          rcases h.cache_live s' wid hc with ⟨w, nid', hww, hid, hnode, hmem⟩
          refine ⟨{ w with caches := w.caches.erase nid }, nid', ?_, hid, ?_, ?_⟩
          · rw [nodeDtor_wrapper_of_live hn, hww, Option.map_some']
          · rw [nodeDtor_site_ne σ hss]
            exact hnode
          · have hne : nid' ≠ nid := by
              intro he
              exact h.node_inj s' s nid' hss hnode (by rw [he]; exact hn)
            exact (List.mem_erase_of_ne hne).mpr hmem
      · intro s' hs
        by_cases hss : s' = s
        · rw [hss, nodeDtor_site_self_of_live hn]
          exact ⟨by simp, rfl⟩
        · rw [nodeDtor_site_ne σ hss] at hs ⊢
          exact h.stale_cleared s' hs
      · intro s' nid' hn'
        rw [nodeDtor_nextId]
        by_cases hss : s' = s
        · rw [hss, nodeDtor_site_self_of_live hn] at hn'
          cases hn'
        · rw [nodeDtor_site_ne σ hss] at hn'
          exact h.node_fresh s' nid' hn'
      · intro s1 s2 nid0 hne h1 h2
        by_cases hs1 : s1 = s
        · rw [hs1, nodeDtor_site_self_of_live hn] at h1
          cases h1
        · by_cases hs2 : s2 = s
          · rw [hs2, nodeDtor_site_self_of_live hn] at h2
            cases h2
          · rw [nodeDtor_site_ne σ hs1] at h1
            rw [nodeDtor_site_ne σ hs2] at h2
            exact h.node_inj s1 s2 nid0 hne h1 h2

theorem wrapperDtor_of_none {σ : ThreadState} (h : σ.wrapper = none) :
    wrapperDtor σ = σ := by
  simp [wrapperDtor, h]

theorem wrapperDtor_wrapper (σ : ThreadState) : (wrapperDtor σ).wrapper = none := by
  cases hw : σ.wrapper with
  | none => rw [wrapperDtor_of_none hw]; exact hw
  | some w => simp [wrapperDtor, hw]

theorem wrapperDtor_site {σ : ThreadState} {w : Wrapper} (hw : σ.wrapper = some w)
    (s : Nat) :
    (wrapperDtor σ).site s =
      (match (σ.site s).node with
       | NodeLife.live nid =>
           if nid ∈ w.caches then clearSite (σ.site s) else σ.site s
       | _ => σ.site s) := by
  simp only [wrapperDtor, hw, ThreadState.site]

theorem wrapperDtor_site_node (σ : ThreadState) (s : Nat) :
    ((wrapperDtor σ).site s).node = (σ.site s).node := by
  cases hw : σ.wrapper with
  | none => rw [wrapperDtor_of_none hw]
  | some w =>
      rw [wrapperDtor_site hw]
      cases hn : (σ.site s).node with
      | live nid =>
          by_cases hm : nid ∈ w.caches <;> simp [hm, clearSite, hn]
      | notYet => simp [hn]
      | dead => simp [hn]

theorem wrapperDtor_nextId (σ : ThreadState) : (wrapperDtor σ).nextId = σ.nextId := by
  cases hw : σ.wrapper <;> simp [wrapperDtor, hw]

theorem wrapperDtor_makeCount (σ : ThreadState) :
    (wrapperDtor σ).makeCount = σ.makeCount := by
  cases hw : σ.wrapper <;> simp [wrapperDtor, hw]

theorem wrapperDtor_cache_none {σ : ThreadState} (h : Inv σ) (s : Nat) :
    ((wrapperDtor σ).site s).cache = none := by
  cases hw : σ.wrapper with
  | none =>
      rw [wrapperDtor_of_none hw]
      cases hc : (σ.site s).cache with
      | none => rfl
      | some wid =>
          rcases h.cache_live s wid hc with ⟨w, nid, hww, _, _, _⟩
          rw [hw] at hww
          cases hww
  | some w =>
      rw [wrapperDtor_site hw]
      cases hn : (σ.site s).node with
      | live nid =>
          by_cases hm : nid ∈ w.caches
          · simp [hm, clearSite]
          · simp only [hm, if_false, ite_false]
            cases hc : (σ.site s).cache with
            | none => rfl
            | some wid =>
                rcases h.cache_live s wid hc with ⟨w0, nid0, hww, _, hnode, hmem⟩
                rw [hw] at hww
                have hw0 : w0 = w := Option.some.inj hww.symm
                rw [hn] at hnode
                have : nid0 = nid := (NodeLife.live.injEq _ _).mp hnode.symm
                rw [hw0, this] at hmem
                exact absurd hmem hm
      | notYet =>
          simp only
          cases hc : (σ.site s).cache with
          | none => rfl
          | some wid =>
              rcases h.cache_live s wid hc with ⟨w0, nid0, _, _, hnode, _⟩
              rw [hn] at hnode
              cases hnode
      | dead =>
          simp only
          cases hc : (σ.site s).cache with
          | none => rfl
          | some wid =>
              rcases h.cache_live s wid hc with ⟨w0, nid0, _, _, hnode, _⟩
              rw [hn] at hnode
              cases hnode

theorem inv_wrapperDtor {σ : ThreadState} (h : Inv σ) : Inv (wrapperDtor σ) := by
  constructor
  · intro s wid hc
    rw [wrapperDtor_cache_none h] at hc
    cases hc
  · intro s hs
    refine ⟨?_, wrapperDtor_cache_none h s⟩
    rw [wrapperDtor_site_node]
    intro hcon
    cases hw : σ.wrapper with
    | none =>
        rw [wrapperDtor_of_none hw] at hs
        exact (h.stale_cleared s hs).1 hcon
    | some w =>
        rw [wrapperDtor_site hw, hcon] at hs
        simp only at hs
        exact (h.stale_cleared s hs).1 hcon
  · intro s nid hn
    rw [wrapperDtor_site_node] at hn
    rw [wrapperDtor_nextId]
    exact h.node_fresh s nid hn
  · intro s1 s2 nid0 hne h1 h2
    rw [wrapperDtor_site_node] at h1 h2
    exact h.node_inj s1 s2 nid0 hne h1 h2

/-! ## Reachability -/

theorem inv_init : Inv init := by
  constructor
  · intro s wid hc
    simp [init, ThreadState.site, Site.init] at hc
  · intro s hs
    simp [init, ThreadState.site, Site.init] at hs
  · intro s nid hn
    simp [init, ThreadState.site, Site.init] at hn
  · intro s1 s2 nid0 hne h1 h2
    simp [init, ThreadState.site, Site.init] at h1

theorem inv_step {σ : ThreadState} (h : Inv σ) (e : Event) : Inv (step σ e) := by
  cases e with
  | access s => exact (get_spec h s).1
  | nodeTeardown s => exact inv_nodeDtor h s
  | wrapperTeardown => exact inv_wrapperDtor h

theorem inv_run {σ : ThreadState} (h : Inv σ) (evs : List Event) : Inv (run σ evs) := by
  induction evs generalizing σ with
  | nil => exact h
  | cons e rest ih => exact ih (inv_step h e)

theorem run_accesses {σ : ThreadState} (h : Inv σ) {w : Wrapper}
    (hw : σ.wrapper = some w) (evs : List Event) (hacc : evs.all isAccess = true) :
    ∃ w2, (run σ evs).wrapper = some w2 ∧ w2.id = w.id ∧
      (run σ evs).makeCount = σ.makeCount ∧ Inv (run σ evs) := by
  induction evs generalizing σ w with
  | nil => exact ⟨w, hw, rfl, rfl, h⟩
  | cons e rest ih =>
      cases e with
      | access s =>
          have hrun : run σ (Event.access s :: rest) = run (get σ s).2 rest := rfl
          rcases get_spec h s with ⟨hInv, w1, hw1, _, hsome, _⟩
          rcases hsome w hw with ⟨hid1, hmc1⟩
          have hacc2 : rest.all isAccess = true := by simpa [isAccess] using hacc
          rcases ih hInv hw1 hacc2 with ⟨w2, hw2, hid2, hmc2, hInv2⟩
          rw [hrun]
          exact ⟨w2, hw2, by rw [hid2, hid1], by rw [hmc2, hmc1], hInv2⟩
      | nodeTeardown s => simp [isAccess] at hacc
      | wrapperTeardown => simp [isAccess] at hacc

/-! ## Staleness is permanent -/

theorem nodeCtor_stale_self (σ : ThreadState) (s : Nat) :
    ((nodeCtor σ s).site s).stale = (σ.site s).stale := by
  rw [nodeCtor_site_self]

theorem get_stale_self (σ : ThreadState) (s : Nat) :
    ((get σ s).2.site s).stale = (σ.site s).stale := by
  cases hc : (σ.site s).cache with
  | some wid => simp [get, hc]
  | none =>
      simp only [get, hc]
      by_cases hn : (σ.site s).node = NodeLife.notYet
      · simp only [getSlow, hn, ite_true]
        cases hstale : ((nodeCtor σ s).site s).stale <;>
          cases hcache : ((nodeCtor σ s).site s).cache <;>
            simp [hstale, hcache, getWrapper_site, nodeCtor_stale_self σ s] <;>
              rw [← nodeCtor_stale_self σ s, hstale]
      · simp only [getSlow, hn, ite_false]
        cases hstale : (σ.site s).stale <;>
          simp [hstale, hc, getWrapper_site]

theorem wrapperDtor_site_of_dead {σ : ThreadState} {s : Nat}
    (hn : (σ.site s).node = NodeLife.dead) : (wrapperDtor σ).site s = σ.site s := by
  cases hw : σ.wrapper with
  | none => rw [wrapperDtor_of_none hw]
  | some w => rw [wrapperDtor_site hw, hn]

theorem wrapperDtor_site_of_notYet {σ : ThreadState} {s : Nat}
    (hn : (σ.site s).node = NodeLife.notYet) : (wrapperDtor σ).site s = σ.site s := by
  cases hw : σ.wrapper with
  | none => rw [wrapperDtor_of_none hw]
  | some w => rw [wrapperDtor_site hw, hn]

theorem wrapperDtor_site_cases (σ : ThreadState) (s : Nat) :
    (wrapperDtor σ).site s = clearSite (σ.site s) ∨
    (wrapperDtor σ).site s = σ.site s := by
  cases hw : σ.wrapper with
  | none => right; rw [wrapperDtor_of_none hw]
  | some w =>
      rw [wrapperDtor_site hw]
      cases hn : (σ.site s).node with
      | live nid =>
          by_cases hm : nid ∈ w.caches
          · left; simp [hm]
          · right; simp [hm]
      | notYet => right; simp
      | dead => right; simp

theorem step_stale_mono (σ : ThreadState) (e : Event) {s : Nat}
    (hs : (σ.site s).stale = true) : ((step σ e).site s).stale = true := by
  cases e with
  | access s2 =>
      by_cases h2 : s = s2
      · rw [h2] at hs ⊢
        show ((get σ s2).2.site s2).stale = true
        rw [get_stale_self]
        exact hs
      · show ((get σ s2).2.site s).stale = true
        rw [get_site_ne σ h2]
        exact hs
  | nodeTeardown s2 =>
      by_cases h2 : s = s2
      · rw [h2] at hs ⊢
        show ((nodeDtor σ s2).site s2).stale = true
        cases hn : (σ.site s2).node with
        | live nid => rw [nodeDtor_site_self_of_live hn]
        | notYet => rw [nodeDtor_eq_of_notYet hn]; exact hs
        | dead => rw [nodeDtor_eq_of_dead hn]; exact hs
      · show ((nodeDtor σ s2).site s).stale = true
        rw [nodeDtor_site_ne σ h2]
        exact hs
  | wrapperTeardown =>
      show ((wrapperDtor σ).site s).stale = true
      rcases wrapperDtor_site_cases σ s with hcase | hcase <;> rw [hcase]
      · rfl
      · exact hs

theorem run_stale_mono {σ : ThreadState} {s : Nat} (hs : (σ.site s).stale = true)
    (evs : List Event) : ((run σ evs).site s).stale = true := by
  induction evs generalizing σ with
  | nil => exact hs
  | cons e rest ih => exact ih (step_stale_mono σ e hs)

/-! ## Teardown commutation -/

theorem dtor_comm {σ : ThreadState} (h : Inv σ) (s : Nat) :
    nodeDtor (wrapperDtor σ) s = wrapperDtor (nodeDtor σ s) := by
  cases hw : σ.wrapper with
  | none =>
      rw [wrapperDtor_of_none hw]
      have h2 : (nodeDtor σ s).wrapper = none := by
        cases hn : (σ.site s).node with
        | live nid => rw [nodeDtor_wrapper_of_live hn, hw]; rfl
        | notYet => rw [nodeDtor_eq_of_notYet hn]; exact hw
        | dead => rw [nodeDtor_eq_of_dead hn]; exact hw
      rw [wrapperDtor_of_none h2]
  | some w =>
      cases hn : (σ.site s).node with
      | notYet =>
          rw [nodeDtor_eq_of_notYet hn]
          have h2 : ((wrapperDtor σ).site s).node = NodeLife.notYet := by
            rw [wrapperDtor_site_node]; exact hn
          rw [nodeDtor_eq_of_notYet h2]
      | dead =>
          rw [nodeDtor_eq_of_dead hn]
          have h2 : ((wrapperDtor σ).site s).node = NodeLife.dead := by
            rw [wrapperDtor_site_node]; exact hn
          rw [nodeDtor_eq_of_dead h2]
      | live nid =>
          have hA : ((wrapperDtor σ).site s).node = NodeLife.live nid := by
            rw [wrapperDtor_site_node]; exact hn
          have hτw : (nodeDtor σ s).wrapper =
              some { w with caches := w.caches.erase nid } := by
            rw [nodeDtor_wrapper_of_live hn, hw, Option.map_some']
          apply ThreadState.ext'
          · rw [nodeDtor_wrapper_of_live hA, wrapperDtor_wrapper, wrapperDtor_wrapper]
            rfl
          · intro s'
            show (nodeDtor (wrapperDtor σ) s).site s' = (wrapperDtor (nodeDtor σ s)).site s'
            by_cases hss : s' = s
            · rw [hss]
              rw [nodeDtor_site_self_of_live hA]
              have hB : (nodeDtor σ s).site s = ⟨none, true, .dead⟩ :=
                nodeDtor_site_self_of_live hn
              have hBn : ((nodeDtor σ s).site s).node = NodeLife.dead := by rw [hB]
              rw [wrapperDtor_site_of_dead hBn, hB]
            · rw [nodeDtor_site_ne _ hss]
              rw [wrapperDtor_site hw, wrapperDtor_site hτw]
              rw [nodeDtor_site_ne σ hss]
              cases hn2 : (σ.site s').node with
              | notYet => simp
              | dead => simp
              | live nid2 =>
                  have hne2 : nid2 ≠ nid := fun he =>
                    h.node_inj s' s nid2 hss hn2 (by rw [he]; exact hn)
                  simp [List.mem_erase_of_ne hne2]
          · rw [nodeDtor_nextId, wrapperDtor_nextId, wrapperDtor_nextId, nodeDtor_nextId]
          · rw [nodeDtor_makeCount, wrapperDtor_makeCount, wrapperDtor_makeCount,
              nodeDtor_makeCount]

/-! ## Fallible-policy lemmas -/

theorem fGetWrapper_of_some {o : Nat → Bool} {σ : ThreadState} {w : Wrapper}
    (h : σ.wrapper = some w) : fGetWrapper o σ = (Except.ok w.id, σ) := by
  simp [fGetWrapper, h]

theorem fGetWrapper_error {o : Nat → Bool} {σ : ThreadState}
    (h : (fGetWrapper o σ).1 = Except.error ()) :
    σ.wrapper = none ∧ o σ.makeCount = false := by
  cases hw : σ.wrapper with
  | some w => rw [fGetWrapper_of_some hw] at h; cases h
  | none =>
      cases ho : o σ.makeCount with
      | true => simp [fGetWrapper, hw, ho] at h
      | false => exact ⟨rfl, rfl⟩

theorem fGetWrapper_ok_some {o : Nat → Bool} {σ σ1 : ThreadState} {wid : Nat}
    (h : fGetWrapper o σ = (Except.ok wid, σ1)) : ∃ w, σ1.wrapper = some w := by
  cases hw : σ.wrapper with
  | some w =>
      rw [fGetWrapper_of_some hw] at h
      have h2 : σ = σ1 := congrArg Prod.snd h
      exact ⟨w, by rw [← h2]; exact hw⟩
  | none =>
      cases ho : o σ.makeCount with
      | false => simp [fGetWrapper, hw, ho] at h
      | true =>
          simp only [fGetWrapper, hw, ho, ite_true] at h
          have h2 : ({ σ with
              wrapper := some ⟨σ.nextId, []⟩,
              nextId := σ.nextId + 1,
              makeCount := σ.makeCount + 1 } : ThreadState) = σ1 := congrArg Prod.snd h
          exact ⟨⟨σ.nextId, []⟩, by rw [← h2]⟩

theorem fGet_error_source {o : Nat → Bool} {σ : ThreadState} {s : Nat}
    (herr : (fGet o σ s).1 = Except.error ()) :
    σ.wrapper = none ∧ o σ.makeCount = false := by
  cases hc : (σ.site s).cache with
  | some wid => simp [fGet, hc] at herr
  | none =>
      simp only [fGet, hc] at herr
      by_cases hnode : (σ.site s).node = NodeLife.notYet
      · simp only [fGetSlow, hnode, ite_true] at herr
        cases hW : fGetWrapper o σ with
        | mk r σ1 =>
            cases r with
            | error e => exact fGetWrapper_error (by rw [hW])
            | ok wid =>
                exfalso
                rcases fGetWrapper_ok_some hW with ⟨w1, hw1⟩
                cases hst : (σ1.sites s).stale
                · simp only [fNodeCtor, hW] at herr
                  simp [hst, ThreadState.site, ThreadState.setSite] at herr
                · simp only [fNodeCtor, hW] at herr
                  simp [hst, ThreadState.site, ThreadState.setSite,
                    fGetWrapper, hw1] at herr
      · simp only [fGetSlow, hnode, ite_false] at herr
        cases hst : (σ.site s).stale
        · simp only [hst, hc] at herr
          exact fGetWrapper_error herr
        · simp only [hst, hc] at herr
          exact fGetWrapper_error herr

/-! ## The claims -/

/-- C1: for every thread and every single call site, in any sequence of calls
to `get()` on that thread with no intervening teardown of that thread's
storage, every call after the first returns a reference to the identical
object (pointer equality) as the first call.  Here: after any reachable
state `run init pre`, a first `get` at call site `s`, then any further
teardown-free calls `mid`, a later `get` at `s` returns the same object
identity as the first. -/
theorem c1_repeated_get_same_reference (pre mid : List Event) (s : Nat)
    (hmid : mid.all isAccess = true) :
    (get (run (get (run init pre) s).2 mid) s).1 = (get (run init pre) s).1 := by
  have h0 : Inv (run init pre) := inv_run inv_init pre
  rcases get_spec h0 s with ⟨h1, w1, hw1, hr1, _, _⟩
  rcases run_accesses h1 hw1 mid hmid with ⟨w2, hw2, hid2, _, h2⟩
  rcases get_spec h2 s with ⟨_, w3, hw3, hr3, hsome3, _⟩
  rcases hsome3 w2 hw2 with ⟨hid3, _⟩
  rw [hr3, hid3, hid2, hr1]

/-- Witness for C1 at the concrete trace: fresh thread, first `get` at call
site 0, an intervening `get` at call site 1, then `get` at call site 0
again. -/
theorem c1_witness :
    [Event.access 1].all isAccess = true ∧
    (get (run (get (run init []) 0).2 [Event.access 1]) 0).1 =
      (get (run init []) 0).1 :=
  ⟨by decide, c1_repeated_get_same_reference [] [Event.access 1] 0 (by decide)⟩

/-- C2: for every thread and any number of `get()` calls from that thread
(from any number of call sites), the construction policy `Make` is invoked
exactly once on that thread: never zero times once an access has completed,
and never more than once no matter how many accesses occur.  Here: any
nonempty sequence of `get()` calls on a fresh thread leaves the invocation
counter at exactly 1. -/
theorem c2_make_invoked_exactly_once (evs : List Event)
    (hacc : evs.all isAccess = true) (hne : evs ≠ []) :
    (run init evs).makeCount = 1 := by
  cases evs with
  | nil => exact absurd rfl hne
  | cons e rest =>
      cases e with
      | access s =>
          have hrun : run init (Event.access s :: rest) = run (get init s).2 rest := rfl
          rcases get_spec inv_init s with ⟨h1, w1, hw1, _, _, hnone⟩
          have hmc1 : (get init s).2.makeCount = init.makeCount + 1 := hnone rfl
          rcases run_accesses h1 hw1 rest (by simpa [isAccess] using hacc)
            with ⟨w2, _, _, hmc2, _⟩
          rw [hrun, hmc2, hmc1]
          rfl
      | nodeTeardown s => simp [isAccess] at hacc
      | wrapperTeardown => simp [isAccess] at hacc

/-- Witness for C2: three `get()` calls from two call sites on a fresh
thread invoke the policy exactly once. -/
theorem c2_witness :
    [Event.access 0, Event.access 0, Event.access 1].all isAccess = true ∧
    [Event.access 0, Event.access 0, Event.access 1] ≠ ([] : List Event) ∧
    (run init [Event.access 0, Event.access 0, Event.access 1]).makeCount = 1 :=
  ⟨by decide, by decide,
    c2_make_invoked_exactly_once [Event.access 0, Event.access 0, Event.access 1]
      (by decide) (by decide)⟩

/-- C3 counterexample: the claim says the access after a call site went
stale "moves the call site back to the cached-valid state so that
subsequent accesses take the fast path again".  It does not: at the
concrete trace access-at-0, node-teardown-at-0, access-at-0, the call
site's fast pointer is still null and its staleness flag still `true` after
the post-teardown access, so the next access cannot take the fast path
(the fast path requires a non-null cached pointer, source line 151). -/
theorem c3_counterexample_site_stays_stale :
    ((run init [Event.access 0, Event.nodeTeardown 0]).site 0).stale = true ∧
    ((run init [Event.access 0, Event.nodeTeardown 0, Event.access 0]).site 0).cache
      = none ∧
    ((run init [Event.access 0, Event.nodeTeardown 0, Event.access 0]).site 0).stale
      = true := by
  decide

/-- C3 (amended): for every call site in the cached-stale state, the next
`get()` ignores the cached pointer and re-resolves the Wrapper through the
thread's storage from scratch (re-creating it, and re-invoking the policy,
if the per-thread slot was torn down), returning a valid reference; but the
call site stays in the cached-stale state - the fast pointer is not
re-populated and the staleness flag is not reset - so subsequent accesses
continue to take the slow path. -/
theorem c3_amended_stale_get_reresolves (evs : List Event) (s : Nat)
    (hs : ((run init evs).site s).stale = true) :
    ∃ w, (get (run init evs) s).2.wrapper = some w ∧
      (get (run init evs) s).1 = w.id ∧
      ((get (run init evs) s).2.site s).cache = none ∧
      ((get (run init evs) s).2.site s).stale = true ∧
      ((run init evs).wrapper = none →
        (get (run init evs) s).2.makeCount = (run init evs).makeCount + 1) := by
  have h0 : Inv (run init evs) := inv_run inv_init evs
  have hgw : get (run init evs) s = getWrapper (run init evs) := get_of_stale h0 hs
  rcases getWrapper_spec h0 with ⟨_, w, hw, hr, _, hnone⟩
  rw [hgw]
  refine ⟨w, hw, hr, ?_, ?_, hnone⟩
  · rw [getWrapper_site]
    exact (h0.stale_cleared s hs).2
  · rw [getWrapper_site]
    exact hs

/-- Witness for the amended C3: call site 0 goes stale through the
wrapper's teardown; the next `get` re-creates the wrapper (re-invoking the
policy) and the site stays stale. -/
theorem c3_witness :
    ((run init [Event.access 0, Event.wrapperTeardown]).site 0).stale = true ∧
    (∃ w, (get (run init [Event.access 0, Event.wrapperTeardown]) 0).2.wrapper = some w ∧
      (get (run init [Event.access 0, Event.wrapperTeardown]) 0).1 = w.id ∧
      ((get (run init [Event.access 0, Event.wrapperTeardown]) 0).2.site 0).cache = none ∧
      ((get (run init [Event.access 0, Event.wrapperTeardown]) 0).2.site 0).stale = true ∧
      ((run init [Event.access 0, Event.wrapperTeardown]).wrapper = none →
        (get (run init [Event.access 0, Event.wrapperTeardown]) 0).2.makeCount =
          (run init [Event.access 0, Event.wrapperTeardown]).makeCount + 1)) :=
  ⟨by decide,
    c3_amended_stale_get_reresolves [Event.access 0, Event.wrapperTeardown] 0 (by decide)⟩

/-- C4: when a Wrapper is destroyed, it first clears every Cache Node
currently linked in its `caches` collection (setting the node's bound fast
pointer to null and staleness flag to true, via `clearSite`) and unlinks
them all, and only then destroys the contained `T`; consequently no Cache
Node's fast pointer dangles at the Wrapper's death: after the destructor,
every call site's fast pointer on this thread is null and the slot is
empty. -/
theorem c4_wrapper_dtor_clears_all_linked_caches (evs : List Event) (w : Wrapper)
    (hw : (run init evs).wrapper = some w) :
    (wrapperDtor (run init evs)).wrapper = none ∧
    (∀ s, ((wrapperDtor (run init evs)).site s).cache = none) ∧
    (∀ s nid, ((run init evs).site s).node = NodeLife.live nid → nid ∈ w.caches →
      (wrapperDtor (run init evs)).site s = clearSite ((run init evs).site s)) := by
  have h0 : Inv (run init evs) := inv_run inv_init evs
  refine ⟨wrapperDtor_wrapper _, fun s => wrapperDtor_cache_none h0 s, ?_⟩
  intro s nid hn hm
  rw [wrapperDtor_site hw, hn]
  simp [hm]

/-- Witness for C4 at the one-access trace, whose wrapper has identity 0
and a single linked node with identity 1. -/
theorem c4_witness :
    (run init [Event.access 0]).wrapper = some ⟨0, [1]⟩ ∧
    ((wrapperDtor (run init [Event.access 0])).wrapper = none ∧
      (∀ s, ((wrapperDtor (run init [Event.access 0])).site s).cache = none) ∧
      (∀ s nid, ((run init [Event.access 0]).site s).node = NodeLife.live nid →
        nid ∈ (⟨0, [1]⟩ : Wrapper).caches →
        (wrapperDtor (run init [Event.access 0])).site s =
          clearSite ((run init [Event.access 0]).site s))) :=
  ⟨by decide, c4_wrapper_dtor_clears_all_linked_caches [Event.access 0] ⟨0, [1]⟩ (by decide)⟩

/-- C5: for a single thread's teardown, running the Wrapper's destructor
and a Cache Node's destructor in either order is safe and yields the same
state (destruction order independence); the node destructor leaves its call
site cleared (null fast pointer, staleness flag set, node dead); and from
the fully torn-down state the next `get()` on that thread re-resolves and
reconstructs cleanly, re-invoking the construction policy once. -/
theorem c5_teardown_order_independent (evs : List Event) (s nid : Nat)
    (hn : ((run init evs).site s).node = NodeLife.live nid) :
    run (run init evs) [Event.wrapperTeardown, Event.nodeTeardown s] =
      run (run init evs) [Event.nodeTeardown s, Event.wrapperTeardown] ∧
    (run (run init evs) [Event.nodeTeardown s]).site s = ⟨none, true, .dead⟩ ∧
    (∃ w,
      (get (run (run init evs) [Event.wrapperTeardown, Event.nodeTeardown s]) s).2.wrapper
        = some w ∧
      (get (run (run init evs) [Event.wrapperTeardown, Event.nodeTeardown s]) s).1
        = w.id ∧
      (get (run (run init evs) [Event.wrapperTeardown, Event.nodeTeardown s]) s).2.makeCount
        = (run (run init evs) [Event.wrapperTeardown, Event.nodeTeardown s]).makeCount
            + 1) := by
  have h0 : Inv (run init evs) := inv_run inv_init evs
  refine ⟨dtor_comm h0 s, nodeDtor_site_self_of_live hn, ?_⟩
  have hA : Inv (nodeDtor (wrapperDtor (run init evs)) s) :=
    inv_nodeDtor (inv_wrapperDtor h0) s
  have hAw : (nodeDtor (wrapperDtor (run init evs)) s).wrapper = none := by
    cases hn2 : ((wrapperDtor (run init evs)).site s).node with
    | live nid2 =>
        rw [nodeDtor_wrapper_of_live hn2, wrapperDtor_wrapper]
        rfl
    | notYet =>
        rw [nodeDtor_eq_of_notYet hn2]
        exact wrapperDtor_wrapper _
    | dead =>
        rw [nodeDtor_eq_of_dead hn2]
        exact wrapperDtor_wrapper _
  rcases get_spec hA s with ⟨_, w2, hw2, hr2, _, hnone⟩
  exact ⟨w2, hw2, hr2, hnone hAw⟩

/-- Witness for C5 at the one-access trace: the call site's node is live
with identity 1. -/
theorem c5_witness :
    ((run init [Event.access 0]).site 0).node = NodeLife.live 1 ∧
    (run (run init [Event.access 0]) [Event.wrapperTeardown, Event.nodeTeardown 0] =
      run (run init [Event.access 0]) [Event.nodeTeardown 0, Event.wrapperTeardown] ∧
    (run (run init [Event.access 0]) [Event.nodeTeardown 0]).site 0 = ⟨none, true, .dead⟩ ∧
    (∃ w,
      (get (run (run init [Event.access 0])
        [Event.wrapperTeardown, Event.nodeTeardown 0]) 0).2.wrapper = some w ∧
      (get (run (run init [Event.access 0])
        [Event.wrapperTeardown, Event.nodeTeardown 0]) 0).1 = w.id ∧
      (get (run (run init [Event.access 0])
        [Event.wrapperTeardown, Event.nodeTeardown 0]) 0).2.makeCount =
        (run (run init [Event.access 0])
          [Event.wrapperTeardown, Event.nodeTeardown 0]).makeCount + 1)) :=
  ⟨by decide, c5_teardown_order_independent [Event.access 0] 0 1 (by decide)⟩

/-- C6: the invariant - for every live Cache Node, if its `cache` field
(the call site's fast pointer it is bound to) is non-null then it points at
the currently-live Wrapper and the node is linked in that Wrapper's
`caches` collection (`Inv.cache_live`, strengthened by the bookkeeping
facts of `Inv` needed for preservation) - is preserved by every operation:
`get()`, Node construction (which only ever runs on a not-yet-constructed
node static), Node destruction, and Wrapper destruction. -/
theorem c6_invariant_preserved_by_every_operation (σ : ThreadState) (h : Inv σ) :
    (∀ s, Inv (get σ s).2) ∧
    (∀ s, (σ.site s).node = NodeLife.notYet → Inv (nodeCtor σ s)) ∧
    (∀ s, Inv (nodeDtor σ s)) ∧
    Inv (wrapperDtor σ) :=
  ⟨fun s => (get_spec h s).1, fun s hn => inv_nodeCtor h s hn,
    fun s => inv_nodeDtor h s, inv_wrapperDtor h⟩

/-- Witness for C6 at the initial state of a fresh thread. -/
theorem c6_witness :
    Inv init ∧
    ((∀ s, Inv (get init s).2) ∧
      (∀ s, (init.site s).node = NodeLife.notYet → Inv (nodeCtor init s)) ∧
      (∀ s, Inv (nodeDtor init s)) ∧
      Inv (wrapperDtor init)) :=
  ⟨inv_init, c6_invariant_preserved_by_every_operation init inv_init⟩

/-- C8: for any two distinct call sites `s1` and `s2` on the same thread
with the same (type, tag), `get()` at `s1` and `get()` at `s2` return
references to the same object (equal identities), so a mutation made
through the first reference is visible through the second. -/
theorem c8_two_call_sites_same_object (evs : List Event) (s1 s2 : Nat)
    (_hne : s1 ≠ s2) :
    (get (get (run init evs) s1).2 s2).1 = (get (run init evs) s1).1 := by
  have h0 : Inv (run init evs) := inv_run inv_init evs
  rcases get_spec h0 s1 with ⟨h1, w1, hw1, hr1, _, _⟩
  rcases get_spec h1 s2 with ⟨_, w2, hw2, hr2, hsome, _⟩
  rcases hsome w1 hw1 with ⟨hid, _⟩
  rw [hr2, hid, hr1]

/-- Witness for C8 with call sites 0 and 1 on a fresh thread. -/
theorem c8_witness :
    (0 : Nat) ≠ 1 ∧
    (get (get (run init []) 0).2 1).1 = (get (run init []) 0).1 :=
  ⟨by decide, c8_two_call_sites_same_object [] 0 1 (by decide)⟩

/-- C9: whenever a call site's fast-pointer cache is non-null, the fast
path's result `*cache` is the identical object to what the slow-path
resolution through thread-local storage (`getWrapper()`) would return on
that thread, and the fast path does not change the state: the cached and
uncached access paths are equivalent. -/
theorem c9_fast_path_equals_slow_resolution (evs : List Event) (s wid : Nat)
    (hc : ((run init evs).site s).cache = some wid) :
    (get (run init evs) s).1 = wid ∧
    (getWrapper (run init evs)).1 = wid ∧
    (get (run init evs) s).2 = run init evs := by
  have h0 : Inv (run init evs) := inv_run inv_init evs
  rcases h0.cache_live s wid hc with ⟨w, nid, hw, hid, _, _⟩
  refine ⟨?_, ?_, ?_⟩
  · simp [get, hc]
  · rw [getWrapper_of_some hw]
    exact hid
  · simp [get, hc]

/-- Witness for C9 at the one-access trace, where call site 0 caches
wrapper identity 0. -/
theorem c9_witness :
    ((run init [Event.access 0]).site 0).cache = some 0 ∧
    ((get (run init [Event.access 0]) 0).1 = 0 ∧
      (getWrapper (run init [Event.access 0])).1 = 0 ∧
      (get (run init [Event.access 0]) 0).2 = run init [Event.access 0]) :=
  ⟨by decide, c9_fast_path_equals_slow_resolution [Event.access 0] 0 0 (by decide)⟩

/-- C10: once a call site's staleness flag has been set to true, no
operation ever resets it to false and no operation re-populates that call
site's fast-pointer slot: after any further events the flag is still true
and the fast pointer still null, so every subsequent `get()` at that call
site takes the slow path, while still returning a valid reference (the
identity of the then-live or re-created wrapper). -/
theorem c10_staleness_is_permanent (evs futs : List Event) (s : Nat)
    (hs : ((run init evs).site s).stale = true) :
    ((run (run init evs) futs).site s).stale = true ∧
    ((run (run init evs) futs).site s).cache = none ∧
    (∃ w, (get (run (run init evs) futs) s).2.wrapper = some w ∧
      (get (run (run init evs) futs) s).1 = w.id) := by
  have h0 : Inv (run init evs) := inv_run inv_init evs
  have h1 : Inv (run (run init evs) futs) := inv_run h0 futs
  have hst : ((run (run init evs) futs).site s).stale = true := run_stale_mono hs futs
  refine ⟨hst, (h1.stale_cleared s hst).2, ?_⟩
  rcases get_spec h1 s with ⟨_, w, hw, hr, _, _⟩
  exact ⟨w, hw, hr⟩

/-- Witness for C10: site 0 goes stale through node teardown; after a
wrapper teardown and an access it is still stale with a null fast
pointer. -/
theorem c10_witness :
    ((run init [Event.access 0, Event.nodeTeardown 0]).site 0).stale = true ∧
    (((run (run init [Event.access 0, Event.nodeTeardown 0])
        [Event.wrapperTeardown, Event.access 0]).site 0).stale = true ∧
      ((run (run init [Event.access 0, Event.nodeTeardown 0])
        [Event.wrapperTeardown, Event.access 0]).site 0).cache = none ∧
      (∃ w, (get (run (run init [Event.access 0, Event.nodeTeardown 0])
          [Event.wrapperTeardown, Event.access 0]) 0).2.wrapper = some w ∧
        (get (run (run init [Event.access 0, Event.nodeTeardown 0])
          [Event.wrapperTeardown, Event.access 0]) 0).1 = w.id)) :=
  ⟨by decide,
    c10_staleness_is_permanent [Event.access 0, Event.nodeTeardown 0]
      [Event.wrapperTeardown, Event.access 0] 0 (by decide)⟩

/-- C7: if the construction policy fails (the oracle refuses invocation 0)
on a thread's first access, the failure propagates unchanged to that first
caller, the Wrapper is left unconstructed and the call site untouched (no
half-constructed object is observable), and a subsequent `get()` invokes
the policy again - retrying rather than returning a partially built object
(here invocation 1 succeeds and the second call returns the then-built
wrapper); moreover no other error is observable by callers: `fGet` can only
fail when the slot is empty and the policy invocation it makes fails. -/
theorem c7_policy_failure_propagates_and_retries (o : Nat → Bool)
    (h0 : o 0 = false) (h1 : o 1 = true) :
    (fGet o init 0).1 = Except.error () ∧
    (fGet o init 0).2.wrapper = none ∧
    (fGet o init 0).2.makeCount = 1 ∧
    (fGet o init 0).2.site 0 = Site.init ∧
    (∃ w, (fGet o (fGet o init 0).2 0).1 = Except.ok w.id ∧
      (fGet o (fGet o init 0).2 0).2.wrapper = some w ∧
      (fGet o (fGet o init 0).2 0).2.makeCount = 2) ∧
    (∀ σ s, (fGet o σ s).1 = Except.error () →
      σ.wrapper = none ∧ o σ.makeCount = false) := by
  have hfirst : fGet o init 0 = (Except.error (), { init with makeCount := 1 }) := by
    simp [fGet, fGetSlow, fNodeCtor, fGetWrapper, init, ThreadState.site, Site.init, h0]
  have h2a : (fGet o ({ init with makeCount := 1 } : ThreadState) 0).1 = Except.ok 0 := by
    simp [fGet, fGetSlow, fNodeCtor, fGetWrapper, init, ThreadState.site,
      ThreadState.setSite, Site.init, h1]
  have h2b : (fGet o ({ init with makeCount := 1 } : ThreadState) 0).2.wrapper =
      some ⟨0, [1]⟩ := by
    simp [fGet, fGetSlow, fNodeCtor, fGetWrapper, init, ThreadState.site,
      ThreadState.setSite, Site.init, h1]
  have h2c : (fGet o ({ init with makeCount := 1 } : ThreadState) 0).2.makeCount = 2 := by
    simp [fGet, fGetSlow, fNodeCtor, fGetWrapper, init, ThreadState.site,
      ThreadState.setSite, Site.init, h1]
  refine ⟨?_, ?_, ?_, ?_, ⟨⟨0, [1]⟩, ?_, ?_, ?_⟩, fun σ s herr => fGet_error_source herr⟩
  · rw [hfirst]
  · rw [hfirst]
    rfl
  · rw [hfirst]
  · rw [hfirst]
    rfl
  · rw [hfirst]
    exact h2a
  · rw [hfirst]
    exact h2b
  · rw [hfirst]
    exact h2c

/-- Witness for C7 with the concrete oracle that fails exactly the first
invocation. -/
theorem c7_witness :
    ((fun k => k != 0) 0 = false) ∧ ((fun k => k != 0) 1 = true) ∧
    ((fGet (fun k => k != 0) init 0).1 = Except.error () ∧
      (fGet (fun k => k != 0) init 0).2.wrapper = none ∧
      (fGet (fun k => k != 0) init 0).2.makeCount = 1 ∧
      (fGet (fun k => k != 0) init 0).2.site 0 = Site.init ∧
      (∃ w, (fGet (fun k => k != 0) (fGet (fun k => k != 0) init 0).2 0).1 =
          Except.ok w.id ∧
        (fGet (fun k => k != 0) (fGet (fun k => k != 0) init 0).2 0).2.wrapper = some w ∧
        (fGet (fun k => k != 0) (fGet (fun k => k != 0) init 0).2 0).2.makeCount = 2) ∧
      (∀ σ s, (fGet (fun k => k != 0) σ s).1 = Except.error () →
        σ.wrapper = none ∧ (fun k => k != 0) σ.makeCount = false)) :=
  ⟨by decide, by decide,
    c7_policy_failure_propagates_and_retries (fun k => k != 0) (by decide) (by decide)⟩

end SingletonThreadLocal
